import Mathlib

/-!
Shallow embedding of the `baodongle/semantic-versioning` repository
(`main.py` and `post_commit.py`).

Strings are modelled as `String` (in this toolchain a wrapper around
`List Char`); most of the work happens on `List Char`.  Python's `int()`
conversion of a base-10 literal, `str.strip()` and `str.split('.')` are
modelled over ASCII characters, which covers every input the claims and
the repository mention.
-/

/-- Models the ASCII part of Python's whitespace set used by `str.strip()`
and by `int()` when it trims its argument. -/
def isPySpace (c : Char) : Bool :=
  c == ' ' || c == '\t' || c == '\n' || c == '\r' || c == '\x0b' || c == '\x0c'

/-- Models Python's `str.strip()`: remove leading and trailing whitespace. -/
def stripChars (cs : List Char) : List Char :=
  ((cs.dropWhile isPySpace).reverse.dropWhile isPySpace).reverse

/-- Models Python's `str.split('.')`: split at every dot, keeping empty
pieces; the empty string yields one empty piece. -/
def splitOnDot : List Char → List (List Char)
  | [] => [[]]
  | c :: rest =>
    if c = '.' then [] :: splitOnDot rest
    else
      match splitOnDot rest with
      | g :: gs => (c :: g) :: gs
      | [] => [[c]]

/-- One step of accumulating the value of a digit sequence; underscores
(Python digit-group separators) are skipped. -/
def digitStep (acc : Nat) (c : Char) : Nat :=
  if c = '_' then acc else acc * 10 + (c.toNat - 48)

/-- Numeric value of a digit sequence (with optional underscores). -/
def digitsVal (cs : List Char) : Nat :=
  cs.foldl digitStep 0

/-- Whether the last character is a digit (`false` for the empty list). -/
def lastIsDigit (cs : List Char) : Bool :=
  match cs.getLast? with
  | some c => c.isDigit
  | none => false

/-- Models the `digitpart` of a Python base-10 integer literal: nonempty,
every character a digit or an underscore, underscores only directly after a
digit, and the last character a digit (so no leading, trailing or repeated
underscores).  Each character is checked together with its predecessor
(the first character gets the sentinel predecessor `'_'`, forcing it to be
a digit). -/
def validDigitPart (cs : List Char) : Bool :=
  !cs.isEmpty &&
  (cs.zip ('_' :: cs)).all (fun p => p.1.isDigit || (p.1 == '_' && p.2.isDigit)) &&
  lastIsDigit cs

/-- Models Python's `int(s)` for a base-10 string literal: optional
surrounding whitespace, an optional `+`/`-` sign, then a digit part
possibly containing underscore separators.  `none` models the
`ValueError` that `int()` raises on anything else. -/
def pyInt? (cs : List Char) : Option Int :=
  let t := stripChars cs
  let core := if t.head? = some '+' ∨ t.head? = some '-' then t.tail else t
  if validDigitPart core then
    if t.head? = some '-' then some (-(digitsVal core : Int))
    else some (digitsVal core : Int)
  else none

/-- Embeds `_get_valid_version` from `main.py`: convert the field with
`int()` and reject negative values; `none` models the raised
`ValueError` on either failure. -/
def get_valid_version (number : List Char) : Option Int :=
  match pyInt? number with
  | none => none
  | some version => if 0 ≤ version then some version else none

/-- Embeds Python's `list(map(f, xs))` where `f` may raise: the whole map
fails (raises) as soon as one element fails. -/
def mapOrNone (f : List Char → Option Int) : List (List Char) → Option (List Int)
  | [] => some []
  | x :: xs =>
    match f x, mapOrNone f xs with
    | some v, some vs => some (v :: vs)
    | _, _ => none

/-- Embeds `convert_string_to_version_component_numbers` from `main.py`:
strip, split on dots, convert every field via `_get_valid_version`, keep at
most the first three components and pad with zeros up to three.  `none`
models the caught `ValueError` path that logs and returns `None`. -/
def convert_string_to_version_component_numbers (string : String) :
    Option (Int × Int × Int) :=
  match mapOrNone get_valid_version (splitOnDot (stripChars string.data)) with
  | none => none
  | some component =>
    let padded := component.take 3 ++ List.replicate (3 - component.length) 0
    some (padded.getD 0 0, padded.getD 1 0, padded.getD 2 0)

/-- Models Python's comparison of two lists (here of integers):
lexicographic, a strict prefix being smaller. -/
def pyListLt : List Int → List Int → Bool
  | _, [] => false
  | [], _ :: _ => true
  | a :: xs, b :: ys =>
    if a < b then true else if b < a then false else pyListLt xs ys

/-- Embeds `compare_versions` from `main.py`: `-1` if `this < other` as
Python tuples (lexicographic), `0` on equality, `1` otherwise. -/
def compare_versions (this other : Int × Int × Int) : Int :=
  if pyListLt [this.1, this.2.1, this.2.2] [other.1, other.2.1, other.2.2] then -1
  else if this = other then 0
  else 1

/-- Embeds the state of a `Version` instance from `main.py`: the three
integer attributes set by `__init__`. -/
structure Version where
  major : Int
  minor : Int
  patch : Int
deriving DecidableEq

/-- Embeds the `component` attribute: the tuple `(major, minor, patch)`. -/
def Version.component (v : Version) : Int × Int × Int :=
  (v.major, v.minor, v.patch)

/-- Shapes a caller can pass as the `major` argument of `Version.__init__`
in the dynamically typed host: an integer, a string, a tuple of integers,
or any unsupported shape (e.g. a float), which matches no branch. -/
inductive PyVal where
  | int (n : Int)
  | str (s : String)
  | tup (t : List Int)
  | other
deriving DecidableEq

/-- Models a Python exception escaping `Version.__init__`: the `TypeError`
raised when unpacking the `None` returned by the parser on bad input. -/
inductive PyError where
  | typeError
deriving DecidableEq

/-- Embeds `Version.__init__` from `main.py`.  The attributes start at
`(0, 0, 0)`; an all-integer call stores the arguments unchecked; a string
routes through the parser (unpacking its `None` result raises
`TypeError`, modelled as `Except.error`); a tuple is truncated/padded to
three entries unchecked; any other shape matches no branch and silently
leaves `(0, 0, 0)`. -/
def Version.init (major : PyVal) (minor patch : Int) : Except PyError Version :=
  match major with
  | PyVal.int m => Except.ok { major := m, minor := minor, patch := patch }
  | PyVal.str s =>
    match convert_string_to_version_component_numbers s with
    | some (a, b, c) => Except.ok { major := a, minor := b, patch := c }
    | none => Except.error PyError.typeError
  | PyVal.tup t =>
    let padded := t.take 3 ++ List.replicate (3 - t.length) 0
    Except.ok { major := padded.getD 0 0, minor := padded.getD 1 0,
                patch := padded.getD 2 0 }
  | PyVal.other => Except.ok { major := 0, minor := 0, patch := 0 }

/-- The character of a decimal digit value. -/
def digitChar (d : Nat) : Char :=
  Char.ofNat (48 + d)

/-- Decimal digits of `n`, most significant first; the fuel argument only
bounds the recursion depth and any fuel above the digit count gives the
same result. -/
def natToCharsAux : Nat → Nat → List Char
  | 0, _ => []
  | fuel + 1, n =>
    if n < 10 then [digitChar n]
    else natToCharsAux fuel (n / 10) ++ [digitChar (n % 10)]

/-- Models Python's `str` on a non-negative integer: plain decimal digits,
no sign, no padding. -/
def natToChars (n : Nat) : List Char :=
  natToCharsAux (n + 1) n

/-- Models Python's `str` on an integer (a leading minus for negatives). -/
def intToChars (i : Int) : List Char :=
  if i < 0 then '-' :: natToChars i.natAbs else natToChars i.toNat

/-- Embeds `Version.__str__` from `main.py`: the f-string
rendering dot-separated decimal components. -/
def Version.str (v : Version) : String :=
  { data := intToChars v.major ++ '.' :: (intToChars v.minor ++ '.' :: intToChars v.patch) }

/-- Embeds `Version.__lt__` from `main.py`: the comparator returns `-1`. -/
def Version.lt (a b : Version) : Bool :=
  decide (compare_versions a.component b.component = -1)

/-- Embeds `Version.__eq__` from `main.py`: Python's `not` on the integer
comparator result is true exactly when the result is `0`. -/
def Version.eq (a b : Version) : Bool :=
  decide (compare_versions a.component b.component = 0)

/-- Embeds `__gt__` as derived by `functools.total_ordering` from
`__lt__`/`__eq__`: `not (self < other or self == other)`. -/
def Version.gt (a b : Version) : Bool :=
  !(Version.lt a b || Version.eq a b)

/-- Embeds `__le__` as derived by `functools.total_ordering`:
`self < other or self == other`. -/
def Version.le (a b : Version) : Bool :=
  Version.lt a b || Version.eq a b

/-- Embeds `__ge__` as derived by `functools.total_ordering`:
`not self < other`. -/
def Version.ge (a b : Version) : Bool :=
  !(Version.lt a b)

/-- Embeds `__ne__` as Python 3 derives it from `__eq__`. -/
def Version.ne (a b : Version) : Bool :=
  !(Version.eq a b)

/-- The diagnostic `post_commit.py` prints when it catches an `OSError`. -/
def bumpErrorMsg : String :=
  "Error occurred when access file VERSION"

/-- Embeds the module body of `post_commit.py` on a fault-free run.  The
argument is the `VERSION` file's contents (`none` when the file does not
exist); the result is the file's contents afterwards paired with the
console diagnostic, if any.  An existing file is read, parsed, its patch
incremented and rewritten; a parse failure (`TypeError`) is caught, prints
the diagnostic and leaves the file untouched; a missing file is created
with literal contents `1.0.1`. -/
def post_commit (file : Option String) : Option String × Option String :=
  match file with
  | some content =>
    match Version.init (PyVal.str content) 0 0 with
    | Except.ok version =>
      (some (Version.str { version with patch := version.patch + 1 }), none)
    | Except.error PyError.typeError =>
      (some content, some (content ++ " is not a valid version"))
  | none => (some "1.0.1", none)

/-- The file-system step of `post_commit.py` at which a single injected
`OSError` occurs, if any: opening, reading, the `truncate()` call, or the
`write()` call. -/
inductive BumpFault where
  | onOpen
  | onRead
  | onTruncate
  | onWrite
  | noFault
deriving DecidableEq

/-- Embeds the module body of `post_commit.py` together with the
possibility that one of its file operations raises `OSError` (caught by
the script's `except OSError` handler, which prints a diagnostic).  The
operations happen in source order: open, read, parse, `truncate()`,
`write()`.  A fault before `truncate()` leaves the file untouched; a fault
at `write()` strikes after the successful `truncate()`, leaving the file
empty.  In the missing-file branch, a fault at open creates nothing, while
a fault at write leaves the file `open('w')` just created empty. -/
def post_commit_faulty (file : Option String) (fault : BumpFault) :
    Option String × Option String :=
  match file with
  | some content =>
    if fault = BumpFault.onOpen ∨ fault = BumpFault.onRead then
      (some content, some bumpErrorMsg)
    else
      match Version.init (PyVal.str content) 0 0 with
      | Except.ok version =>
        if fault = BumpFault.onTruncate then (some content, some bumpErrorMsg)
        else if fault = BumpFault.onWrite then (some "", some bumpErrorMsg)
        else (some (Version.str { version with patch := version.patch + 1 }), none)
      | Except.error PyError.typeError =>
        (some content, some (content ++ " is not a valid version"))
  | none =>
    if fault = BumpFault.onOpen then (none, some bumpErrorMsg)
    else if fault = BumpFault.onWrite then (some "", some bumpErrorMsg)
    else (some "1.0.1", none)

/-! Helper lemmas about decimal digits and the rendering of naturals. -/

lemma digitChar_isDigit {d : Nat} (hd : d < 10) : (digitChar d).isDigit = true := by
  interval_cases d <;> decide

lemma digitChar_toNat {d : Nat} (hd : d < 10) : (digitChar d).toNat - 48 = d := by
  interval_cases d <;> decide

lemma isDigit_facts {c : Char} (h : c.isDigit = true) :
    c ≠ '.' ∧ c ≠ '_' ∧ c ≠ '+' ∧ c ≠ '-' ∧ isPySpace c = false := by
  refine ⟨?_, ?_, ?_, ?_, ?_⟩
  · intro hc; subst hc; exact absurd h (by decide)
  · intro hc; subst hc; exact absurd h (by decide)
  · intro hc; subst hc; exact absurd h (by decide)
  · intro hc; subst hc; exact absurd h (by decide)
  · have h1 : c ≠ ' ' := by intro hc; subst hc; exact absurd h (by decide)
    have h2 : c ≠ '\t' := by intro hc; subst hc; exact absurd h (by decide)
    have h3 : c ≠ '\n' := by intro hc; subst hc; exact absurd h (by decide)
    have h4 : c ≠ '\r' := by intro hc; subst hc; exact absurd h (by decide)
    have h5 : c ≠ '\x0b' := by intro hc; subst hc; exact absurd h (by decide)
    have h6 : c ≠ '\x0c' := by intro hc; subst hc; exact absurd h (by decide)
    simp [isPySpace, h1, h2, h3, h4, h5, h6]

lemma digitsVal_append_singleton (xs : List Char) (c : Char) :
    digitsVal (xs ++ [c]) = digitStep (digitsVal xs) c := by
  simp [digitsVal, List.foldl_append]

lemma natToCharsAux_props :
    ∀ fuel n, n < fuel →
      natToCharsAux fuel n ≠ [] ∧
      (∀ c ∈ natToCharsAux fuel n, c.isDigit = true) ∧
      digitsVal (natToCharsAux fuel n) = n := by
  intro fuel
  induction fuel with
  | zero => intro n hn; omega
  | succ fuel ih =>
    intro n hn
    by_cases h10 : n < 10
    · refine ⟨by simp [natToCharsAux, h10], ?_, ?_⟩
      · intro c hc
        simp [natToCharsAux, h10] at hc
        subst hc
        exact digitChar_isDigit h10
      · have hu : digitChar n ≠ '_' := (isDigit_facts (digitChar_isDigit h10)).2.1
        simp [natToCharsAux, h10, digitsVal, digitStep, hu, digitChar_toNat h10]
    · have hdiv : n / 10 < fuel := by
        have : n / 10 < n := Nat.div_lt_self (by omega) (by omega)
        omega
      obtain ⟨hne, hdig, hval⟩ := ih (n / 10) hdiv
      have hmod : n % 10 < 10 := Nat.mod_lt _ (by omega)
      refine ⟨by simp [natToCharsAux, h10], ?_, ?_⟩
      · intro c hc
        simp only [natToCharsAux, if_neg h10, List.mem_append, List.mem_singleton] at hc
        rcases hc with hc | hc
        · exact hdig c hc
        · subst hc; exact digitChar_isDigit hmod
      · have hu : digitChar (n % 10) ≠ '_' :=
          (isDigit_facts (digitChar_isDigit hmod)).2.1
        simp only [natToCharsAux, if_neg h10]
        rw [digitsVal_append_singleton, hval]
        simp [digitStep, hu, digitChar_toNat hmod]
        omega

lemma natToChars_ne_nil (n : Nat) : natToChars n ≠ [] :=
  (natToCharsAux_props (n + 1) n (Nat.lt_succ_self n)).1

lemma natToChars_digits (n : Nat) : ∀ c ∈ natToChars n, c.isDigit = true :=
  (natToCharsAux_props (n + 1) n (Nat.lt_succ_self n)).2.1

lemma digitsVal_natToChars (n : Nat) : digitsVal (natToChars n) = n :=
  (natToCharsAux_props (n + 1) n (Nat.lt_succ_self n)).2.2

/-! Helper lemmas about the parser on pure digit sequences. -/

lemma validDigitPart_of_digits (cs : List Char) (h1 : cs ≠ [])
    (h2 : ∀ c ∈ cs, c.isDigit = true) : validDigitPart cs = true := by
  have hempty : cs.isEmpty = false := by
    cases cs with
    | nil => exact absurd rfl h1
    | cons c rest => rfl
  have hall : (cs.zip ('_' :: cs)).all
      (fun p => p.1.isDigit || (p.1 == '_' && p.2.isDigit)) = true := by
    rw [List.all_eq_true]
    intro p hp
    have hmem : p.1 ∈ cs := (List.of_mem_zip hp).1
    simp [h2 p.1 hmem]
  have hlast : lastIsDigit cs = true := by
    rw [lastIsDigit, List.getLast?_eq_getLast cs h1]
    exact h2 _ (List.getLast_mem h1)
  simp [validDigitPart, hempty, hall, hlast]

lemma dropWhile_isPySpace_eq_self (cs : List Char)
    (h : ∀ c ∈ cs, isPySpace c = false) : cs.dropWhile isPySpace = cs := by
  cases cs with
  | nil => rfl
  | cons c rest => simp [List.dropWhile_cons, h c (by simp)]

lemma stripChars_eq_self (cs : List Char)
    (h : ∀ c ∈ cs, isPySpace c = false) : stripChars cs = cs := by
  unfold stripChars
  rw [dropWhile_isPySpace_eq_self cs h,
      dropWhile_isPySpace_eq_self cs.reverse (by
        intro c hc
        exact h c (List.mem_reverse.mp hc)),
      List.reverse_reverse]

lemma splitOnDot_no_dot (cs : List Char) (h : ∀ c ∈ cs, c ≠ '.') :
    splitOnDot cs = [cs] := by
  induction cs with
  | nil => rfl
  | cons c rest ih =>
    have hc : ¬(c = '.') := h c (by simp)
    have hrest := ih (fun x hx => h x (List.mem_cons_of_mem c hx))
    simp [splitOnDot, hc, hrest]

lemma splitOnDot_append (xs ys : List Char) (h : ∀ c ∈ xs, c ≠ '.') :
    splitOnDot (xs ++ '.' :: ys) = xs :: splitOnDot ys := by
  induction xs with
  | nil => simp [splitOnDot]
  | cons c rest ih =>
    have hc : ¬(c = '.') := h c (by simp)
    have hrest := ih (fun x hx => h x (List.mem_cons_of_mem c hx))
    simp [splitOnDot, hc, hrest]

lemma pyInt_digits (cs : List Char) (h1 : cs ≠ [])
    (h2 : ∀ c ∈ cs, c.isDigit = true) :
    pyInt? cs = some (digitsVal cs : Int) := by
  have hs : stripChars cs = cs :=
    stripChars_eq_self cs (fun c hc => (isDigit_facts (h2 c hc)).2.2.2.2)
  obtain ⟨c, rest, hcr⟩ := List.exists_cons_of_ne_nil h1
  have hcd := isDigit_facts (h2 c (by rw [hcr]; simp))
  have hhead : cs.head? = some c := by rw [hcr]; rfl
  have hplus : ¬(cs.head? = some '+' ∨ cs.head? = some '-') := by
    rw [hhead]
    simp only [Option.some.injEq]
    push_neg
    exact ⟨hcd.2.2.1, hcd.2.2.2.1⟩
  have hminus : ¬(cs.head? = some '-') := by
    rw [hhead]
    simp only [Option.some.injEq]
    exact hcd.2.2.2.1
  simp only [pyInt?, hs, if_neg hplus, if_pos (validDigitPart_of_digits cs h1 h2),
    if_neg hminus]

lemma get_valid_version_digits (cs : List Char) (h1 : cs ≠ [])
    (h2 : ∀ c ∈ cs, c.isDigit = true) :
    get_valid_version cs = some (digitsVal cs : Int) := by
  rw [get_valid_version, pyInt_digits cs h1 h2]
  simp [Int.natCast_nonneg]

/-! Helper lemmas for the round trip: rendering then parsing. -/

lemma intToChars_natCast (a : Nat) : intToChars (a : Int) = natToChars a := by
  rw [intToChars, if_neg (not_lt.mpr (Int.natCast_nonneg a)), Int.toNat_natCast]

lemma mapOrNone_natToChars (l : List Nat) :
    mapOrNone get_valid_version (l.map natToChars) =
      some (l.map (fun n => (n : Int))) := by
  induction l with
  | nil => rfl
  | cons n rest ih =>
    simp only [List.map_cons, mapOrNone,
      get_valid_version_digits _ (natToChars_ne_nil n) (natToChars_digits n),
      digitsVal_natToChars, ih]
    rfl

lemma convert_render (a b c : Nat) :
    convert_string_to_version_component_numbers
      (Version.str { major := (a : Int), minor := (b : Int), patch := (c : Int) }) =
      some ((a : Int), (b : Int), (c : Int)) := by
  have hA : ∀ x ∈ natToChars a, x ≠ '.' :=
    fun x hx => (isDigit_facts (natToChars_digits a x hx)).1
  have hB : ∀ x ∈ natToChars b, x ≠ '.' :=
    fun x hx => (isDigit_facts (natToChars_digits b x hx)).1
  have hC : ∀ x ∈ natToChars c, x ≠ '.' :=
    fun x hx => (isDigit_facts (natToChars_digits c x hx)).1
  have hstr : (Version.str (Version.mk (a : Int) (b : Int) (c : Int))).data =
      natToChars a ++ '.' :: (natToChars b ++ '.' :: natToChars c) := by
    simp [Version.str, intToChars_natCast]
  have hspace : ∀ x ∈ natToChars a ++ '.' :: (natToChars b ++ '.' :: natToChars c),
      isPySpace x = false := by
    intro x hx
    simp only [List.mem_append, List.mem_cons] at hx
    rcases hx with hx | hx | hx | hx | hx
    · exact (isDigit_facts (natToChars_digits a x hx)).2.2.2.2
    · subst hx; rfl
    · exact (isDigit_facts (natToChars_digits b x hx)).2.2.2.2
    · subst hx; rfl
    · exact (isDigit_facts (natToChars_digits c x hx)).2.2.2.2
  have hmap : mapOrNone get_valid_version [natToChars a, natToChars b, natToChars c] =
      some [(a : Int), (b : Int), (c : Int)] := by
    have := mapOrNone_natToChars [a, b, c]
    simpa using this
  rw [convert_string_to_version_component_numbers, hstr,
    stripChars_eq_self _ hspace, splitOnDot_append _ _ hA,
    splitOnDot_append _ _ hB, splitOnDot_no_dot _ hC, hmap]
  rfl

/-! Helper lemmas about the three-way comparator. -/

lemma pyListLt3_iff (a1 a2 a3 b1 b2 b3 : Int) :
    pyListLt [a1, a2, a3] [b1, b2, b3] = true ↔
      (a1 < b1 ∨ (a1 = b1 ∧ (a2 < b2 ∨ (a2 = b2 ∧ a3 < b3)))) := by
  simp only [pyListLt]
  split_ifs <;> simp <;> omega

lemma compare_versions_spec (a1 a2 a3 b1 b2 b3 : Int) :
    (compare_versions (a1, a2, a3) (b1, b2, b3) = -1 ↔
      (a1 < b1 ∨ (a1 = b1 ∧ (a2 < b2 ∨ (a2 = b2 ∧ a3 < b3))))) ∧
    (compare_versions (a1, a2, a3) (b1, b2, b3) = 0 ↔
      (a1 = b1 ∧ a2 = b2 ∧ a3 = b3)) ∧
    (compare_versions (a1, a2, a3) (b1, b2, b3) = 1 ↔
      (b1 < a1 ∨ (b1 = a1 ∧ (b2 < a2 ∨ (b2 = a2 ∧ b3 < a3))))) := by
  have hlt := pyListLt3_iff a1 a2 a3 b1 b2 b3
  simp only [compare_versions]
  split_ifs with h1 h2
  · rw [hlt] at h1
    norm_num
    omega
  · rw [hlt] at h1
    rw [Prod.mk.injEq, Prod.mk.injEq] at h2
    norm_num
    omega
  · rw [hlt] at h1
    rw [Prod.mk.injEq, Prod.mk.injEq] at h2
    norm_num
    omega

/-! Helper lemmas for the non-negativity of string-constructed versions. -/

lemma get_valid_version_nonneg (cs : List Char) (v : Int)
    (h : get_valid_version cs = some v) : 0 ≤ v := by
  rw [get_valid_version] at h
  cases hp : pyInt? cs with
  | none => rw [hp] at h; cases h
  | some w =>
    simp only [hp] at h
    by_cases hw : 0 ≤ w
    · rw [if_pos hw, Option.some.injEq] at h
      omega
    · rw [if_neg hw] at h
      cases h

lemma mapOrNone_nonneg (l : List (List Char)) (comp : List Int)
    (h : mapOrNone get_valid_version l = some comp) : ∀ x ∈ comp, 0 ≤ x := by
  induction l generalizing comp with
  | nil =>
    rw [mapOrNone, Option.some.injEq] at h
    subst h
    simp
  | cons cs rest ih =>
    rw [mapOrNone] at h
    cases hv : get_valid_version cs with
    | none => simp only [hv] at h; cases h
    | some v =>
      cases hr : mapOrNone get_valid_version rest with
      | none => simp only [hv, hr] at h; cases h
      | some vs =>
        simp only [hv, hr, Option.some.injEq] at h
        subst h
        intro x hx
        rcases List.mem_cons.mp hx with hx | hx
        · subst hx; exact get_valid_version_nonneg cs x hv
        · exact ih vs hr x hx

lemma getD_nonneg (l : List Int) (h : ∀ x ∈ l, 0 ≤ x) (i : Nat) :
    0 ≤ l.getD i 0 := by
  induction l generalizing i with
  | nil => simp
  | cons x rest ih =>
    cases i with
    | zero => simpa using h x (by simp)
    | succ j =>
      simp only [List.getD_cons_succ]
      exact ih (fun y hy => h y (List.mem_cons_of_mem x hy)) j

lemma convert_nonneg (s : String) (a b c : Int)
    (h : convert_string_to_version_component_numbers s = some (a, b, c)) :
    0 ≤ a ∧ 0 ≤ b ∧ 0 ≤ c := by
  rw [convert_string_to_version_component_numbers] at h
  cases hm : mapOrNone get_valid_version (splitOnDot (stripChars s.data)) with
  | none => rw [hm] at h; cases h
  | some comp =>
    simp only [hm, Option.some.injEq] at h
    have hcomp := mapOrNone_nonneg _ comp hm
    have hpad : ∀ x ∈ comp.take 3 ++ List.replicate (3 - comp.length) (0 : Int),
        0 ≤ x := by
      intro x hx
      rcases List.mem_append.mp hx with hx | hx
      · exact hcomp x (List.take_subset 3 comp hx)
      · rw [List.eq_of_mem_replicate hx]
    have ha := getD_nonneg _ hpad 0
    have hb := getD_nonneg _ hpad 1
    have hc := getD_nonneg _ hpad 2
    rw [Prod.mk.injEq, Prod.mk.injEq] at h
    obtain ⟨h1, h2, h3⟩ := h
    rw [← h1, ← h2, ← h3]
    exact ⟨ha, hb, hc⟩

/-! Claim theorems. -/

/-- C1 (counterexample): constructing a `Version` from the malformed strings
`"1.2.x"` and `""` does not produce a typed `InvalidComponent` failure — no
such error type exists in the code; instead the constructor raises an
untyped `TypeError` (from unpacking the parser's `None`), modelled here as
`Except.error PyError.typeError`. -/
theorem c1_counterexample :
    Version.init (PyVal.str "1.2.x") 0 0 = Except.error PyError.typeError ∧
    Version.init (PyVal.str "") 0 0 = Except.error PyError.typeError :=
  ⟨rfl, rfl⟩

/-- C1 (amended): for the malformed inputs `"1.2.x"` and `""` the parser
itself never throws — it returns the typed absent value `none` — while
`Version` construction from those strings fails by raising `TypeError`
(an untyped fault that callers such as the bump utility catch), not a
typed `InvalidComponent`. -/
theorem c1_amended :
    convert_string_to_version_component_numbers "1.2.x" = none ∧
    convert_string_to_version_component_numbers "" = none ∧
    Version.init (PyVal.str "1.2.x") 0 0 = Except.error PyError.typeError ∧
    Version.init (PyVal.str "") 0 0 = Except.error PyError.typeError :=
  ⟨rfl, rfl, rfl, rfl⟩

/-- C2 (counterexample): construction from integer components or from a
tuple with a negative entry does not fail with `NegativeComponent`; the
negative value is stored unchanged, so not every `Version` has
non-negative components. -/
theorem c2_counterexample :
    Version.init (PyVal.int (-1)) 2 3 = Except.ok (Version.mk (-1) 2 3) ∧
    Version.init (PyVal.tup [1, -2]) 0 0 = Except.ok (Version.mk 1 (-2) 0) ∧
    (Version.mk (-1) 2 3).major < 0 :=
  ⟨rfl, rfl, by decide⟩

/-- C2 (amended): only the string construction path enforces the
invariant — every `Version` successfully constructed from a string has
`major`, `minor`, `patch` each non-negative, because the parser rejects
negative fields; the integer and tuple paths store their inputs
unchecked. -/
theorem c2_amended_string_nonneg (s : String) (v : Version)
    (h : Version.init (PyVal.str s) 0 0 = Except.ok v) :
    0 ≤ v.major ∧ 0 ≤ v.minor ∧ 0 ≤ v.patch := by
  rw [Version.init] at h
  cases hc : convert_string_to_version_component_numbers s with
  | none => rw [hc] at h; cases h
  | some t =>
    obtain ⟨a, b, c⟩ := t
    simp only [hc, Except.ok.injEq] at h
    subst h
    exact convert_nonneg s a b c hc

/-- C2 (witness): the amended theorem applied to the string `"1.2.3"`. -/
theorem c2_witness :
    (0 : Int) ≤ (Version.mk 1 2 3).major ∧
    (0 : Int) ≤ (Version.mk 1 2 3).minor ∧
    (0 : Int) ≤ (Version.mk 1 2 3).patch :=
  c2_amended_string_nonneg "1.2.3" (Version.mk 1 2 3) rfl

/-- C3: for every non-negative integer triple `(a, b, c)`, rendering the
`Version` built from the components to its canonical string and parsing
that string back yields a `Version` equal to the original — the parsed
result is `Except.ok` of the very same value, which the class's `__eq__`
confirms. -/
theorem c3_round_trip (a b c : Nat) :
    Version.init (PyVal.str (Version.str (Version.mk (a : Int) (b : Int) (c : Int)))) 0 0 =
      Except.ok (Version.mk (a : Int) (b : Int) (c : Int)) ∧
    Version.init (PyVal.int (a : Int)) (b : Int) (c : Int) =
      Except.ok (Version.mk (a : Int) (b : Int) (c : Int)) ∧
    Version.eq (Version.mk (a : Int) (b : Int) (c : Int))
      (Version.mk (a : Int) (b : Int) (c : Int)) = true := by
  refine ⟨?_, rfl, ?_⟩
  · rw [Version.init, convert_render]
  · have h0 : compare_versions ((a : Int), (b : Int), (c : Int))
        ((a : Int), (b : Int), (c : Int)) = 0 :=
      ((compare_versions_spec a b c a b c).2.1).mpr ⟨rfl, rfl, rfl⟩
    simp only [Version.eq, Version.component, decide_eq_true_eq]
    exact h0

/-- C4: the three-way comparator returns `-1`/`0`/`1` exactly according to
lexicographic comparison of the triples: major first, then minor, then
patch. -/
theorem c4_compare_lexicographic (x y : Version) :
    (compare_versions x.component y.component = -1 ↔
      (x.major < y.major ∨ (x.major = y.major ∧
        (x.minor < y.minor ∨ (x.minor = y.minor ∧ x.patch < y.patch))))) ∧
    (compare_versions x.component y.component = 0 ↔
      (x.major = y.major ∧ x.minor = y.minor ∧ x.patch = y.patch)) ∧
    (compare_versions x.component y.component = 1 ↔
      (y.major < x.major ∨ (y.major = x.major ∧
        (y.minor < x.minor ∨ (y.minor = x.minor ∧ y.patch < x.patch))))) := by
  obtain ⟨a1, a2, a3⟩ := x
  obtain ⟨b1, b2, b3⟩ := y
  exact compare_versions_spec a1 a2 a3 b1 b2 b3

/-- C5: the derived relational operations form a strict total order:
exactly one of `x < y`, `x == y`, `x > y` holds, `<` is transitive, and
`x <= y` holds iff `x > y` does not. -/
theorem c5_total_order (x y z : Version) :
    ((Version.lt x y = true ∧ Version.eq x y = false ∧ Version.gt x y = false) ∨
     (Version.lt x y = false ∧ Version.eq x y = true ∧ Version.gt x y = false) ∨
     (Version.lt x y = false ∧ Version.eq x y = false ∧ Version.gt x y = true)) ∧
    (Version.lt x y = true → Version.lt y z = true → Version.lt x z = true) ∧
    (Version.le x y = true ↔ ¬Version.gt x y = true) := by
  obtain ⟨a1, a2, a3⟩ := x
  obtain ⟨b1, b2, b3⟩ := y
  obtain ⟨c1, c2, c3⟩ := z
  have hxy := compare_versions_spec a1 a2 a3 b1 b2 b3
  have hyz := compare_versions_spec b1 b2 b3 c1 c2 c3
  have hxz := compare_versions_spec a1 a2 a3 c1 c2 c3
  simp only [Version.lt, Version.eq, Version.gt, Version.le, Version.component,
    Bool.or_eq_true, Bool.not_eq_true', Bool.not_eq_false', Bool.or_eq_false_iff,
    decide_eq_true_eq, decide_eq_false_iff_not]
  rw [hxy.1, hxy.2.1, hyz.1, hxz.1]
  omega

/-- C5 (witness): the total-order theorem applied to the concrete versions
`1.2.8`, `2.4.5` and `3.0.0`. -/
theorem c5_witness :
    ((Version.lt (Version.mk 1 2 8) (Version.mk 2 4 5) = true ∧
      Version.eq (Version.mk 1 2 8) (Version.mk 2 4 5) = false ∧
      Version.gt (Version.mk 1 2 8) (Version.mk 2 4 5) = false) ∨
     (Version.lt (Version.mk 1 2 8) (Version.mk 2 4 5) = false ∧
      Version.eq (Version.mk 1 2 8) (Version.mk 2 4 5) = true ∧
      Version.gt (Version.mk 1 2 8) (Version.mk 2 4 5) = false) ∨
     (Version.lt (Version.mk 1 2 8) (Version.mk 2 4 5) = false ∧
      Version.eq (Version.mk 1 2 8) (Version.mk 2 4 5) = false ∧
      Version.gt (Version.mk 1 2 8) (Version.mk 2 4 5) = true)) ∧
    (Version.lt (Version.mk 1 2 8) (Version.mk 2 4 5) = true →
      Version.lt (Version.mk 2 4 5) (Version.mk 3 0 0) = true →
      Version.lt (Version.mk 1 2 8) (Version.mk 3 0 0) = true) ∧
    (Version.le (Version.mk 1 2 8) (Version.mk 2 4 5) = true ↔
      ¬Version.gt (Version.mk 1 2 8) (Version.mk 2 4 5) = true) :=
  c5_total_order (Version.mk 1 2 8) (Version.mk 2 4 5) (Version.mk 3 0 0)

/-- C6: parsing strings with fewer than three dot-separated fields pads the
missing trailing components with zeros, and parsing a string with more
than three fields silently discards the extras, at the parser and at the
constructor alike. -/
theorem c6_padding_truncation :
    convert_string_to_version_component_numbers "5" = some (5, 0, 0) ∧
    convert_string_to_version_component_numbers "5.2" = some (5, 2, 0) ∧
    convert_string_to_version_component_numbers "1.2.3.4" = some (1, 2, 3) ∧
    Version.init (PyVal.str "5") 0 0 = Except.ok (Version.mk 5 0 0) ∧
    Version.init (PyVal.str "5.2") 0 0 = Except.ok (Version.mk 5 2 0) ∧
    Version.init (PyVal.str "1.2.3.4") 0 0 = Except.ok (Version.mk 1 2 3) :=
  ⟨rfl, rfl, rfl, rfl, rfl, rfl⟩

/-- C7: one fault-free run of the bump utility turns a version file
containing `"1.2.8"` into one containing exactly `"1.2.9"` with no
diagnostic, and with no file present it creates the file containing
exactly `"1.0.1"`. -/
theorem c7_bump :
    post_commit (some "1.2.8") = (some "1.2.9", none) ∧
    post_commit none = (some "1.0.1", none) :=
  ⟨rfl, rfl⟩

/-- C8: evaluation of the bump utility at the failing input — an existing
file containing `"1.2.8"` with the `write()` call raising `OSError` after
`truncate()` already succeeded.  The script catches the error and prints a
diagnostic, but the file ends up empty: neither left untouched (`"1.2.8"`)
nor fully rewritten with the new value the fault-free run produces. -/
theorem c8_truncated_write :
    post_commit_faulty (some "1.2.8") BumpFault.onWrite = (some "", some bumpErrorMsg) ∧
    some "" ≠ some "1.2.8" ∧
    some "" ≠ (post_commit (some "1.2.8")).1 := by
  refine ⟨rfl, ?_, ?_⟩ <;> decide

/-- C9: evaluation of the constructor at the failing input — an argument
whose shape matches no branch (modelled by `PyVal.other`, e.g. a float):
the code silently succeeds with components `(0, 0, 0)` and produces no
diagnostic, instead of rejecting the input. -/
theorem c9_silent_default :
    Version.init PyVal.other 0 0 = Except.ok (Version.mk 0 0 0) :=
  rfl

/-- C10: the parser accepts per dot-separated field anything Python's
`int()` accepts — surrounding whitespace inside a field, a leading `+`
sign, underscore digit separators — so `" 1 .+2.1_0"` parses to
`(1, 2, 10)`, strictly more than plain decimal digit sequences. -/
theorem c10_int_conversion_breadth :
    convert_string_to_version_component_numbers " 1 .+2.1_0" = some (1, 2, 10) ∧
    get_valid_version " 1 ".data = some 1 ∧
    get_valid_version "+2".data = some 2 ∧
    get_valid_version "1_0".data = some 10 :=
  ⟨rfl, rfl, rfl, rfl⟩

